import Mathlib

/-!
# Verification of the selection / filtering / queue subsystem of `enhanced-widgets.js`

Shallow embedding of the `EnhancedWidgetManager` class state and operations.
JS `Set`s are modelled as `List String` in insertion order (JS sets iterate in
insertion order); the `Map` model cache is a `List Model` searched by id;
JS numbers are modelled as `ℚ`.
-/

namespace EnhancedWidgets

/-! ## String helpers modelling the JS primitives used by the code -/

/-- Boolean prefix test on character lists (models the substring search
underlying JS `String.prototype.includes`). -/
def listPrefix : List Char → List Char → Bool
  | [], _ => true
  | _ :: _, [] => false
  | a :: as, b :: bs => a == b && listPrefix as bs

/-- Models JS `hay.includes(needle)`: some suffix of `hay` starts with `needle`. -/
def strContains (hay needle : String) : Bool :=
  hay.toList.tails.any fun t => listPrefix needle.toList t

/-- Models `s.replace(/[^\d.]/g, '')`: keep only digits and dots. -/
def stripNonNum (s : String) : String :=
  ⟨s.toList.filter fun c => c.isDigit || c == '.'⟩

/-- Numeric value of a digit string. -/
def digitsVal (l : List Char) : Nat :=
  l.foldl (fun a c => 10 * a + (c.toNat - 48)) 0

/-- Models JS `parseFloat` on the already-stripped numeric strings the code
produces: integer part, optional dot, fractional part.  (JS returns `NaN` on a
string with no leading digits; the model returns `0` there — the claims only
evaluate it on well-formed size strings.) -/
def parseFloatQ (s : String) : ℚ :=
  let l := s.toList
  let intPart := l.takeWhile fun c => c.isDigit
  let rest := l.drop intPart.length
  let fracPart := if rest.head? = some '.' then (rest.drop 1).takeWhile (fun c => c.isDigit) else []
  if intPart = [] ∧ fracPart = [] then 0
  else (digitsVal intPart : ℚ) + (digitsVal fracPart : ℚ) / (10 ^ fracPart.length)

/-! ## Data model (from `loadModelData` and the class constructor) -/

/-- A catalog item, from the sample-model objects in `loadModelData`.
Presentation-only fields (`base`, `preview`, `tags`, `rating`, `downloads`)
are omitted: no claim touches them. -/
structure Model where
  id : String
  name : String
  type : String
  style : String
  size : String
  civitaiUrl : String
  deriving Repr, DecidableEq

/-- Models `this.modelCache.get(modelId)` over the cache as an id-keyed map. -/
def lookupModel (cache : List Model) (modelId : String) : Option Model :=
  cache.find? fun m => m.id == modelId

/-- First sample model of `loadModelData`. -/
def model1 : Model :=
  { id := "model_1", name := "Realistic Vision V6.0", type := "checkpoint",
    style := "realistic", size := "2.1 GB",
    civitaiUrl := "https://civitai.com/models/4201" }

/-- Second sample model of `loadModelData`. -/
def model2 : Model :=
  { id := "model_2", name := "Anime Pastel Dream", type := "checkpoint",
    style := "anime", size := "2.1 GB",
    civitaiUrl := "https://civitai.com/models/1234" }

/-- Third sample model of `loadModelData`. -/
def model3 : Model :=
  { id := "model_3", name := "DreamShaper XL", type := "checkpoint",
    style := "artistic", size := "6.4 GB",
    civitaiUrl := "https://civitai.com/models/112902" }

/-- Fourth sample model of `loadModelData`. -/
def model4 : Model :=
  { id := "model_4", name := "Detail Tweaker LoRA", type := "lora",
    style := "enhancement", size := "144 MB",
    civitaiUrl := "https://civitai.com/models/5678" }

/-- The four sample models of `loadModelData` (claim-relevant fields). -/
def demoModels : List Model :=
  [model1, model2, model3, model4]

/-! ## Filter Engine (`currentFilter`, `filterModels`) -/

/-- `this.currentFilter`: `{ search, type, style }`. -/
structure FilterCriteria where
  search : String
  type : String
  style : String
  deriving Repr, DecidableEq

/-- The constructor's initial filter: `{ search: '', type: 'all', style: 'all' }`. -/
def defaultFilter : FilterCriteria :=
  { search := "", type := "all", style := "all" }

/-- The per-card visibility test of `filterModels`:
`matchesSearch && matchesType && matchesStyle`, where the card's title is the
model name (lower-cased before the `includes` check) and the card's dataset
carries the model's `type` and `style`. -/
def matchesFilter (f : FilterCriteria) (m : Model) : Bool :=
  (f.search == "" || strContains m.name.toLower f.search) &&
  (f.type == "all" || m.type == f.type) &&
  (f.style == "all" || m.style == f.style)

/-- The visible-count accumulation of `filterModels`. -/
def visibleCount (f : FilterCriteria) (models : List Model) : Nat :=
  (models.filter fun m => matchesFilter f m).length

/-! ## Selection (`toggleModelSelection`) and selected size (`calculateSelectedSize`) -/

/-- `toggleModelSelection(modelId)`: delete the id if present, else add it
(JS `Set.add` appends in insertion order). -/
def toggleModelSelection (modelId : String) (selectedModels : List String) : List String :=
  if selectedModels.contains modelId then selectedModels.erase modelId
  else selectedModels ++ [modelId]

/-- A sequence of `toggleModelSelection` calls applied in order. -/
def applyToggles (ids : List String) (selectedModels : List String) : List String :=
  ids.foldl (fun sel modelId => toggleModelSelection modelId sel) selectedModels

/-- The loop body of `calculateSelectedSize`: parse the numeric part of the
size string; a size string containing `"MB"` contributes `value / 1024`,
anything else contributes the value directly. -/
def sizeContribution (m : Model) : ℚ :=
  let size := parseFloatQ (stripNonNum m.size)
  if strContains m.size "MB" then size / 1024 else size

/-- `calculateSelectedSize()`: accumulate over the selected ids in order,
skipping ids with no cache entry. -/
def calculateSelectedSize (cache : List Model) (selectedModels : List String) : ℚ :=
  selectedModels.foldl
    (fun totalSize modelId =>
      match lookupModel cache modelId with
      | some m => totalSize + sizeContribution m
      | none => totalSize)
    0

/-! ## Download queue (`addSelectedToQueue`, `processDownloadQueue`, `downloadModel`) -/

/-- An entry of `this.downloadQueue`, as pushed by `addSelectedToQueue`. -/
structure QueueEntry where
  id : String
  name : String
  url : String
  size : String
  status : String
  progress : ℚ
  deriving Repr, DecidableEq

/-- The object literal pushed by `addSelectedToQueue` for a cache hit. -/
def mkQueueEntry (m : Model) : QueueEntry :=
  { id := m.id, name := m.name, url := m.civitaiUrl, size := m.size,
    status := "queued", progress := 0 }

/-- One iteration of the `addSelectedToQueue` loop: push a fresh entry iff the
model is in the cache and no queue entry with that id exists yet. -/
def enqueueStep (cache : List Model) (queue : List QueueEntry) (modelId : String) :
    List QueueEntry :=
  match lookupModel cache modelId with
  | some m =>
      if queue.any fun item => item.id == modelId then queue
      else queue ++ [mkQueueEntry m]
  | none => queue

/-- `addSelectedToQueue()`: iterate over the selected ids in insertion order. -/
def addSelectedToQueue (cache : List Model) (selectedModels : List String)
    (queue : List QueueEntry) : List QueueEntry :=
  selectedModels.foldl (enqueueStep cache) queue

/-- Final state of one entry after the `try`/`catch` of `processDownloadQueue`:
on success `status = 'completed'` and `progress = 100`, on a transfer failure
`status = 'error'` (progress untouched). -/
def processOutcome (ok : Bool) (item : QueueEntry) : QueueEntry :=
  if ok then { item with status := "completed", progress := 100 }
  else { item with status := "error" }

/-- End state of the queue after the `processDownloadQueue` loop has run to
completion: each entry that was `'queued'` when the snapshot
`downloadQueue.filter(item => item.status === 'queued')` was taken is driven
through `downloading` to its outcome; other entries are untouched.  The
simulated transfer (`downloadModel`, which only the `try`/`catch` can observe
failing) is injected as an outcome oracle `transfer` keyed by the entry id. -/
def processDownloadQueue (transfer : String → Bool) (queue : List QueueEntry) :
    List QueueEntry :=
  queue.map fun item =>
    if item.status == "queued" then processOutcome (transfer item.id) item else item

/-- The sequence of `item.progress` values written by `downloadModel`'s
interval callback, given the stream of random increments
(`Math.random() * 10` each tick): the unclamped accumulator `progress` grows by
each increment, the entry records `min progress 100`, and the interval stops
(resolving the promise) once the accumulator reaches 100. -/
def downloadTraceAux (p : ℚ) : List ℚ → List ℚ
  | [] => []
  | inc :: rest =>
      let p2 := p + inc
      if 100 ≤ p2 then [min p2 100] else min p2 100 :: downloadTraceAux p2 rest

/-- `downloadModel`'s progress trace from a fresh entry (`progress = 0`). -/
def downloadTrace (incs : List ℚ) : List ℚ :=
  downloadTraceAux 0 incs

/-! ## Queue start (`startDownloadQueue`) and in-flight processing loops

`startDownloadQueue` unconditionally invokes the async `processDownloadQueue`;
each invocation takes its own snapshot `queuedItems` of the entries that are
`'queued'` at call time and then works through that snapshot across `await`
suspension points.  The scheduler-level state is therefore the queue plus the
list of in-flight loop snapshots (ids still pending in each invocation). -/

structure QueueState where
  downloadQueue : List QueueEntry
  activeLoops : List (List String)
  deriving Repr, DecidableEq

/-- The snapshot `this.downloadQueue.filter(item => item.status === 'queued')`
taken at the start of one `processDownloadQueue` invocation, as ids. -/
def queuedSnapshot (queue : List QueueEntry) : List String :=
  (queue.filter fun item => item.status == "queued").map fun item => item.id

/-- `startDownloadQueue()`: no guard of any kind — it always launches another
`processDownloadQueue` invocation, whose snapshot is the currently queued
entries. -/
def startDownloadQueue (s : QueueState) : QueueState :=
  { s with activeLoops := s.activeLoops ++ [queuedSnapshot s.downloadQueue] }

/-! ## Favorites (`toggleFavorite`, `saveFavorites`) -/

/-- Favorites state: the in-memory set (insertion order), the Preference Store
slot under the key `'modelFavorites'`, and the `console.warn` log. -/
structure FavState where
  favorites : List String
  storedFavorites : Option (List String)
  warnings : List String
  deriving Repr, DecidableEq

/-- `saveFavorites()`: `try { localStorage.setItem(...) } catch { console.warn }`.
The store's availability is injected as `storeOk`; on failure the write is
dropped and a warning is logged — nothing is thrown (the function is total). -/
def saveFavorites (storeOk : Bool) (s : FavState) : FavState :=
  if storeOk then { s with storedFavorites := some s.favorites }
  else { s with warnings := s.warnings ++ ["Could not save favorites"] }

/-- `toggleFavorite(modelId)`: flip membership, then persist via
`saveFavorites` (DOM star update omitted — render-bridge only). -/
def toggleFavorite (storeOk : Bool) (modelId : String) (s : FavState) : FavState :=
  let favorites :=
    if s.favorites.contains modelId then s.favorites.erase modelId
    else s.favorites ++ [modelId]
  saveFavorites storeOk { s with favorites := favorites }

/-! ## Helper lemmas -/

lemma listPrefix_iff : ∀ (l₁ l₂ : List Char), listPrefix l₁ l₂ = true ↔ l₁ <+: l₂
  | [], l₂ => by simp [listPrefix]
  | a :: as, [] => by simp [listPrefix]
  | a :: as, b :: bs => by
      simp [listPrefix, List.cons_prefix_cons, listPrefix_iff as bs, and_comm]

lemma strContains_iff (hay needle : String) :
    strContains hay needle = true ↔ needle.toList <:+: hay.toList := by
  rw [List.infix_iff_prefix_suffix]
  simp only [strContains, List.any_eq_true, List.mem_tails, listPrefix_iff]
  exact ⟨fun ⟨t, h1, h2⟩ => ⟨t, h2, h1⟩, fun ⟨t, h1, h2⟩ => ⟨t, h2, h1⟩⟩

/-! ## C1: filter semantics -/

/-- C1: `matchesFilter` returns `true` iff all three criteria hold — the
search text is empty or the lower-cased model name contains it as a substring,
the type criterion is `"all"` or equals the model's type, and the style
criterion is `"all"` or equals the model's style; and with the default
criteria (`""`/`"all"`/`"all"`) every model matches. -/
theorem matches_iff_and_default_matches_all :
    (∀ (f : FilterCriteria) (m : Model),
        matchesFilter f m = true ↔
          ((f.search = "" ∨ f.search.toList <:+: m.name.toLower.toList) ∧
           (f.type = "all" ∨ m.type = f.type) ∧
           (f.style = "all" ∨ m.style = f.style))) ∧
    (∀ m : Model, matchesFilter defaultFilter m = true) := by
  constructor
  · intro f m
    simp [matchesFilter, Bool.and_eq_true, Bool.or_eq_true, strContains_iff, and_assoc]
  · intro m
    simp [matchesFilter, defaultFilter]

/-! ## C2: selected size -/

lemma selectedSize_foldl (cache : List Model) :
    ∀ (sel : List String) (a : ℚ),
      sel.foldl
        (fun totalSize modelId =>
          match lookupModel cache modelId with
          | some m => totalSize + sizeContribution m
          | none => totalSize) a
      = a + ((sel.filterMap (lookupModel cache)).map sizeContribution).sum
  | [], a => by simp
  | modelId :: rest, a => by
      cases hlk : lookupModel cache modelId with
      | some m =>
          simp only [List.foldl_cons, hlk, List.filterMap_cons, List.map_cons, List.sum_cons,
            selectedSize_foldl cache rest]
          ring
      | none =>
          simp only [List.foldl_cons, hlk, List.filterMap_cons,
            selectedSize_foldl cache rest]

lemma calculateSelectedSize_eq_sum (cache : List Model) (sel : List String) :
    calculateSelectedSize cache sel =
      ((sel.filterMap (lookupModel cache)).map sizeContribution).sum := by
  unfold calculateSelectedSize
  rw [selectedSize_foldl]
  ring

/-- The two catalog items of the spec's concrete size scenario:
A of size `"2.0 GB"` and B of size `"512 MB"`. -/
def scenarioModels : List Model :=
  [ { id := "model_a", name := "Model A", type := "checkpoint", style := "realistic",
      size := "2.0 GB", civitaiUrl := "https://example.com/a" },
    { id := "model_b", name := "Model B", type := "lora", style := "anime",
      size := "512 MB", civitaiUrl := "https://example.com/b" } ]

/-- C2: `calculateSelectedSize` equals the sum, over the selected ids found in
the cache, of the parsed size value — divided by 1024 when the size string
carries `"MB"`, taken directly otherwise; and for the concrete scenario
(items of size `"2.0 GB"` and `"512 MB"` both selected) the total is exactly
`5/2 = 2.5` (the rational model makes the floating-tolerance claim exact). -/
theorem selected_total_size :
    (∀ (cache : List Model) (sel : List String),
        calculateSelectedSize cache sel =
          ((sel.filterMap (lookupModel cache)).map sizeContribution).sum) ∧
    calculateSelectedSize scenarioModels ["model_a", "model_b"] = 5 / 2 := by
  refine ⟨calculateSelectedSize_eq_sum, ?_⟩
  rw [calculateSelectedSize_eq_sum]
  rw [show ["model_a", "model_b"].filterMap (lookupModel scenarioModels) = scenarioModels
    from rfl]
  rw [show (scenarioModels.map sizeContribution).sum
      = sizeContribution scenarioModels[0] + (sizeContribution scenarioModels[1] + 0) from rfl]
  rw [show sizeContribution scenarioModels[0]
      = ((digitsVal ['2'] : ℚ) + (digitsVal ['0'] : ℚ) / (10 ^ (1 : Nat))) from rfl]
  rw [show sizeContribution scenarioModels[1]
      = ((digitsVal ['5', '1', '2'] : ℚ) + (digitsVal [] : ℚ) / (10 ^ (0 : Nat))) / 1024 from rfl]
  rw [show digitsVal ['2'] = 2 from rfl, show digitsVal ['0'] = 0 from rfl,
    show digitsVal ['5', '1', '2'] = 512 from rfl, show digitsVal [] = 0 from rfl]
  norm_num

/-! ## C9: toggle parity -/

lemma mem_toggle_self (modelId : String) (sel : List String) (h : sel.Nodup) :
    modelId ∈ toggleModelSelection modelId sel ↔ modelId ∉ sel := by
  unfold toggleModelSelection
  by_cases hm : modelId ∈ sel
  · simp [hm, h.mem_erase_iff]
  · simp [hm]

lemma mem_toggle_other (a modelId : String) (sel : List String) (h : a ≠ modelId) :
    a ∈ toggleModelSelection modelId sel ↔ a ∈ sel := by
  unfold toggleModelSelection
  by_cases hm : modelId ∈ sel
  · simp [hm, List.mem_erase_of_ne h]
  · simp [hm, h]

lemma toggle_nodup (modelId : String) (sel : List String) (h : sel.Nodup) :
    (toggleModelSelection modelId sel).Nodup := by
  by_cases hm : modelId ∈ sel
  · have he : toggleModelSelection modelId sel = sel.erase modelId := by
      unfold toggleModelSelection
      simp [hm]
    rw [he]
    exact h.erase modelId
  · have he : toggleModelSelection modelId sel = sel ++ [modelId] := by
      unfold toggleModelSelection
      simp [hm]
    rw [he, List.nodup_append]
    exact ⟨h, List.nodup_singleton modelId,
      fun x hx hx1 => hm ((List.mem_singleton.mp hx1) ▸ hx)⟩

/-- C9: after any finite sequence of `toggleModelSelection` calls, an id is a
member of the selection iff exactly one of "the id was toggled an odd number
of times" and "the id was initially a member" holds (membership equals initial
membership XOR toggle parity); double-toggling therefore restores the
original membership. -/
theorem toggle_parity (sel ids : List String) (modelId : String) (h : sel.Nodup) :
    modelId ∈ applyToggles ids sel ↔
      Xor' (Odd (ids.count modelId)) (modelId ∈ sel) := by
  induction ids generalizing sel with
  | nil => simp [applyToggles, Xor', Nat.odd_iff]
  | cons j rest ih =>
      have hstep : applyToggles (j :: rest) sel
          = applyToggles rest (toggleModelSelection j sel) := rfl
      rw [hstep, ih _ (toggle_nodup j sel h)]
      by_cases hj : j = modelId
      · subst hj
        rw [mem_toggle_self j sel h,
          show (j :: rest).count j = rest.count j + 1 by simp [List.count_cons],
          show Odd (rest.count j + 1) ↔ ¬ Odd (rest.count j) by
            simp [Nat.odd_add_one, Nat.not_odd_iff_even]]
        unfold Xor'
        tauto
      · rw [mem_toggle_other modelId j sel fun e => hj e.symm,
          show (j :: rest).count modelId = rest.count modelId by simp [List.count_cons, hj]]

/-! ## C3 / C10: enqueue dedup and catalog snapshot -/

/-- The queue entries carrying a given id (what `downloadQueue.find(item =>
item.id === modelId)` probes for non-emptiness). -/
def entriesFor (modelId : String) (queue : List QueueEntry) : List QueueEntry :=
  queue.filter fun item => item.id == modelId

lemma any_id_iff (modelId : String) (queue : List QueueEntry) :
    (queue.any fun item => item.id == modelId) = true ↔ entriesFor modelId queue ≠ [] := by
  rw [List.any_eq_true, Ne, entriesFor, List.filter_eq_nil_iff]
  push_neg
  simp

lemma find?_model_id {cache : List Model} {modelId : String} {m : Model}
    (hm : lookupModel cache modelId = some m) : m.id = modelId := by
  have h := List.find?_some hm
  simpa using h

lemma step_other (cache : List Model) (queue : List QueueEntry) (j modelId : String)
    (hj : j ≠ modelId) :
    entriesFor modelId (enqueueStep cache queue j) = entriesFor modelId queue := by
  unfold enqueueStep
  cases hlk : lookupModel cache j with
  | none => rfl
  | some m' =>
      cases hq : queue.any fun item => item.id == j with
      | true => simp [hq]
      | false =>
          have hm' : m'.id = j := find?_model_id hlk
          simp [hq, entriesFor, List.filter_append, mkQueueEntry, hm', hj]

lemma step_other_any (cache : List Model) (queue : List QueueEntry) (j modelId : String)
    (hj : j ≠ modelId) :
    ((enqueueStep cache queue j).any fun item => item.id == modelId)
      = (queue.any fun item => item.id == modelId) := by
  rw [Bool.eq_iff_iff, any_id_iff, any_id_iff, step_other cache queue j modelId hj]

lemma enqueue_entriesFor_none (cache : List Model) (modelId : String)
    (hm : lookupModel cache modelId = none) :
    ∀ (sel : List String) (queue : List QueueEntry),
      entriesFor modelId (addSelectedToQueue cache sel queue) = entriesFor modelId queue
  | [], _ => rfl
  | j :: rest, queue => by
      rw [show addSelectedToQueue cache (j :: rest) queue
          = addSelectedToQueue cache rest (enqueueStep cache queue j) from rfl,
        enqueue_entriesFor_none cache modelId hm rest _]
      by_cases hj : j = modelId
      · subst hj
        unfold enqueueStep
        rw [hm]
      · exact step_other cache queue j modelId hj

lemma enqueue_entriesFor_some (cache : List Model) (modelId : String) (m : Model)
    (hm : lookupModel cache modelId = some m) :
    ∀ (sel : List String) (queue : List QueueEntry),
      entriesFor modelId (addSelectedToQueue cache sel queue) =
        if queue.any fun item => item.id == modelId then entriesFor modelId queue
        else if modelId ∈ sel then [mkQueueEntry m]
        else entriesFor modelId queue
  | [], queue => by
      cases hq : queue.any fun item => item.id == modelId with
      | true => simp [addSelectedToQueue, hq]
      | false => simp [addSelectedToQueue, hq]
  | j :: rest, queue => by
      rw [show addSelectedToQueue cache (j :: rest) queue
          = addSelectedToQueue cache rest (enqueueStep cache queue j) from rfl,
        enqueue_entriesFor_some cache modelId m hm rest _]
      by_cases hj : j = modelId
      · subst hj
        cases hq : queue.any fun item => item.id == j with
        | true =>
            have hstep : enqueueStep cache queue j = queue := by
              simp [enqueueStep, hm, hq]
            rw [hstep, hq]
            simp
        | false =>
            have hstep : enqueueStep cache queue j = queue ++ [mkQueueEntry m] := by
              simp [enqueueStep, hm, hq]
            have hmid : m.id = j := find?_model_id hm
            have hany2 : ((queue ++ [mkQueueEntry m]).any fun item => item.id == j) = true := by
              simp [List.any_append, mkQueueEntry, hmid]
            have h0 : entriesFor j queue = [] := by
              by_contra hne
              have hne' : entriesFor j queue ≠ [] := hne
              have := (any_id_iff j queue).mpr hne'
              simp [hq] at this
            have hfilt : entriesFor j (queue ++ [mkQueueEntry m]) = [mkQueueEntry m] := by
              rw [entriesFor, List.filter_append, ← entriesFor, h0]
              simp [mkQueueEntry, hmid]
            rw [hstep, hany2, hfilt]
            simp [h0]
      · rw [step_other cache queue j modelId hj, step_other_any cache queue j modelId hj]
        have hmem : (modelId ∈ j :: rest) ↔ (modelId ∈ rest) := by
          constructor
          · intro hh
            rcases List.mem_cons.mp hh with h1 | h1
            · exact absurd h1.symm hj
            · exact h1
          · exact fun hh => List.mem_cons.mpr (Or.inr hh)
        simp only [hmem]

lemma enqueue_mem (cache : List Model) :
    ∀ (sel : List String) (queue : List QueueEntry),
      ∀ item ∈ addSelectedToQueue cache sel queue,
        item ∈ queue ∨ ∃ m, lookupModel cache item.id = some m ∧ item = mkQueueEntry m
  | [], _ => fun _ h => Or.inl h
  | j :: rest, queue => by
      intro item h
      rcases enqueue_mem cache rest (enqueueStep cache queue j) item h with hin | hex
      · unfold enqueueStep at hin
        cases hlk : lookupModel cache j with
        | none =>
            rw [hlk] at hin
            exact Or.inl hin
        | some m' =>
            rw [hlk] at hin
            have hin' : item ∈ if (queue.any fun it => it.id == j) = true
                then queue else queue ++ [mkQueueEntry m'] := hin
            by_cases hq : (queue.any fun it => it.id == j) = true
            · rw [if_pos hq] at hin'
              exact Or.inl hin'
            · rw [if_neg hq] at hin'
              rcases List.mem_append.mp hin' with h1 | h1
              · exact Or.inl h1
              · have h2 : item = mkQueueEntry m' := List.mem_singleton.mp h1
                refine Or.inr ⟨m', ?_, h2⟩
                rw [h2]
                have : (mkQueueEntry m').id = j := find?_model_id hlk
                rw [show (mkQueueEntry m').id = m'.id from rfl, find?_model_id hlk, hlk]
      · exact Or.inr hex

/-- C3: enqueueing a collection of selected ids whose catalog entry exists
skips every id that already has a queue entry (its entries are unchanged — no
duplicate, no error), appends exactly one fresh entry (status `"queued"`,
progress `0`, built from the catalog item) for an id with no existing entry,
and enqueueing a second time changes nothing for that id. -/
theorem enqueue_dedup (cache : List Model) (sel : List String) (queue : List QueueEntry)
    (modelId : String) (m : Model) (hm : lookupModel cache modelId = some m) :
    ((queue.any fun item => item.id == modelId) = true →
        entriesFor modelId (addSelectedToQueue cache sel queue) = entriesFor modelId queue) ∧
    ((queue.any fun item => item.id == modelId) = false → modelId ∈ sel →
        entriesFor modelId (addSelectedToQueue cache sel queue) = [mkQueueEntry m]) ∧
    ((mkQueueEntry m).status = "queued" ∧ (mkQueueEntry m).progress = 0) ∧
    entriesFor modelId (addSelectedToQueue cache sel (addSelectedToQueue cache sel queue)) =
      entriesFor modelId (addSelectedToQueue cache sel queue) := by
  have hmain := enqueue_entriesFor_some cache modelId m hm sel
  refine ⟨fun hq => by rw [hmain queue, if_pos hq], fun hq hmem => by
    rw [hmain queue, if_neg (by simp [hq]), if_pos hmem], ⟨rfl, rfl⟩, ?_⟩
  rw [hmain (addSelectedToQueue cache sel queue)]
  by_cases hq2 : ((addSelectedToQueue cache sel queue).any
      fun item => item.id == modelId) = true
  · rw [if_pos hq2]
  · rw [if_neg hq2]
    by_cases hmem : modelId ∈ sel
    · exfalso
      by_cases hq : (queue.any fun item => item.id == modelId) = true
      · have h1 : entriesFor modelId queue ≠ [] := (any_id_iff modelId queue).mp hq
        have h2 := hmain queue
        rw [if_pos hq] at h2
        exact hq2 ((any_id_iff _ _).mpr (h2 ▸ h1))
      · have h2 := hmain queue
        rw [if_neg hq, if_pos hmem] at h2
        exact hq2 ((any_id_iff _ _).mpr (by rw [h2]; simp))
    · rw [if_neg hmem]

/-- C10: for an id with no catalog entry, `addSelectedToQueue` creates no
queue entry (its entries are unchanged); and every entry of the resulting
queue either was already present or is the snapshot of a catalog item that the
cache resolves for the entry's id — with name, url and size copied from that
item, status `"queued"` and progress `0`. -/
theorem enqueue_skips_missing (cache : List Model) (sel : List String)
    (queue : List QueueEntry) (modelId : String)
    (hm : lookupModel cache modelId = none) :
    entriesFor modelId (addSelectedToQueue cache sel queue) = entriesFor modelId queue ∧
    ∀ item ∈ addSelectedToQueue cache sel queue, item ∈ queue ∨
      ∃ m, lookupModel cache item.id = some m ∧ item.name = m.name ∧
        item.url = m.civitaiUrl ∧ item.size = m.size ∧
        item.status = "queued" ∧ item.progress = 0 := by
  refine ⟨enqueue_entriesFor_none cache modelId hm sel queue, fun item h => ?_⟩
  rcases enqueue_mem cache sel queue item h with hin | ⟨m, hlk, heq⟩
  · exact Or.inl hin
  · exact Or.inr ⟨m, hlk, by rw [heq]; exact ⟨rfl, rfl, rfl, rfl, rfl⟩⟩

/-! ## C4: queue processing resolves every queued entry -/

lemma processDownloadQueue_getElem (transfer : String → Bool) (queue : List QueueEntry)
    (i : Nat) (item : QueueEntry) (hi : queue[i]? = some item)
    (hq : item.status = "queued") :
    (processDownloadQueue transfer queue)[i]? = some (processOutcome (transfer item.id) item) := by
  rw [processDownloadQueue, List.getElem?_map, hi]
  simp [hq]

/-- C4: after the processing loop completes, the entry at any position that
was `"queued"` at the start is `"completed"` with progress `100` or `"error"`
(none remain `"queued"` or `"downloading"`); and the outcome at a position
depends only on the transfer result for that entry's own id, so a failure
elsewhere neither halts nor alters the processing of this entry. -/
theorem queue_processing_resolves (transfer transfer2 : String → Bool)
    (queue : List QueueEntry) (i : Nat) (item : QueueEntry)
    (hi : queue[i]? = some item) (hq : item.status = "queued") :
    (processDownloadQueue transfer queue)[i]? =
      some (processOutcome (transfer item.id) item) ∧
    (((processOutcome (transfer item.id) item).status = "completed" ∧
        (processOutcome (transfer item.id) item).progress = 100) ∨
      (processOutcome (transfer item.id) item).status = "error") ∧
    (processOutcome (transfer item.id) item).status ≠ "queued" ∧
    (processOutcome (transfer item.id) item).status ≠ "downloading" ∧
    (transfer2 item.id = transfer item.id →
      (processDownloadQueue transfer2 queue)[i]? = (processDownloadQueue transfer queue)[i]?) := by
  refine ⟨processDownloadQueue_getElem transfer queue i item hi hq, ?_, ?_, ?_, fun h2 => by
    rw [processDownloadQueue_getElem transfer queue i item hi hq,
      processDownloadQueue_getElem transfer2 queue i item hi hq, h2]⟩
  · cases hok : transfer item.id with
    | true => exact Or.inl (by simp [processOutcome])
    | false => exact Or.inr (by simp [processOutcome])
  · cases hok : transfer item.id with
    | true => simp [processOutcome]
    | false => simp [processOutcome]
  · cases hok : transfer item.id with
    | true => simp [processOutcome]
    | false => simp [processOutcome]

/-! ## C8: progress bounds, monotonicity, completion snap -/

lemma downloadTraceAux_props :
    ∀ (incs : List ℚ) (p : ℚ), 0 ≤ p → (∀ x ∈ incs, 0 ≤ x) →
      List.Chain' (· ≤ ·) (downloadTraceAux p incs) ∧
      ∀ x ∈ downloadTraceAux p incs, min p 100 ≤ x ∧ 0 ≤ x ∧ x ≤ 100
  | [], p, _, _ => by simp [downloadTraceAux]
  | inc :: rest, p, hp, hincs => by
      have hinc : 0 ≤ inc := hincs inc (by simp)
      have hrest : ∀ x ∈ rest, 0 ≤ x := fun x hx => hincs x (by simp [hx])
      have hp2 : 0 ≤ p + inc := by linarith
      rw [show downloadTraceAux p (inc :: rest)
          = if 100 ≤ p + inc then [min (p + inc) 100]
            else min (p + inc) 100 :: downloadTraceAux (p + inc) rest from rfl]
      by_cases hge : (100 : ℚ) ≤ p + inc
      · rw [if_pos hge]
        refine ⟨List.chain'_singleton _, fun x hx => ?_⟩
        rw [List.mem_singleton.mp hx]
        exact ⟨min_le_min (by linarith) le_rfl, le_min hp2 (by norm_num), min_le_right _ _⟩
      · rw [if_neg hge]
        obtain ⟨hch, hbd⟩ := downloadTraceAux_props rest (p + inc) hp2 hrest
        constructor
        · rw [List.chain'_cons']
          exact ⟨fun y hy => (hbd y (List.mem_of_mem_head? hy)).1, hch⟩
        · intro x hx
          rcases List.mem_cons.mp hx with hx1 | hx1
          · rw [hx1]
            exact ⟨min_le_min (by linarith) le_rfl, le_min hp2 (by norm_num),
              min_le_right _ _⟩
          · obtain ⟨h1, h2, h3⟩ := hbd x hx1
            exact ⟨le_trans (min_le_min (by linarith) le_rfl) h1, h2, h3⟩

/-- C8: given non-negative simulated increments (`Math.random() * 10 ≥ 0`),
every progress value `downloadModel` writes lies in `[0, 100]` and the
successive values are monotonically non-decreasing; and an entry that the
processing loop transitions from `"queued"` to `"completed"` has progress
exactly `100`. -/
theorem progress_invariants (incs : List ℚ) (h : ∀ x ∈ incs, 0 ≤ x) :
    (∀ x ∈ downloadTrace incs, 0 ≤ x ∧ x ≤ 100) ∧
    List.Chain' (· ≤ ·) (downloadTrace incs) ∧
    (∀ (transfer : String → Bool) (queue : List QueueEntry) (i : Nat)
        (item item2 : QueueEntry), queue[i]? = some item → item.status = "queued" →
        (processDownloadQueue transfer queue)[i]? = some item2 →
        item2.status = "completed" → item2.progress = 100) := by
  obtain ⟨hch, hbd⟩ := downloadTraceAux_props incs 0 le_rfl h
  refine ⟨fun x hx => ⟨(hbd x hx).2.1, (hbd x hx).2.2⟩, hch, ?_⟩
  intro transfer queue i item item2 hi hq hi2 hc
  rw [processDownloadQueue_getElem transfer queue i item hi hq] at hi2
  have heq : processOutcome (transfer item.id) item = item2 := Option.some.inj hi2
  cases hok : transfer item.id with
  | true =>
      rw [← heq]
      simp [processOutcome, hok]
  | false =>
      exfalso
      rw [← heq] at hc
      simp [processOutcome, hok] at hc

/-! ## C5: `startDownloadQueue` is not an idempotent start -/

/-- A queued entry snapshotting the first sample model. -/
def demoEntry : QueueEntry :=
  mkQueueEntry model1

/-- A state in which one processing loop is already in flight (its snapshot
still holds `"model_1"`, which is still `"queued"`). -/
def busyState : QueueState :=
  { downloadQueue := [demoEntry], activeLoops := [["model_1"]] }

/-- C5 counterexample: the claim "calling `start()` while already processing
is a no-op" is false — at the concrete state with one loop already active and
a queued entry, `startDownloadQueue` changes the state by launching another
loop. -/
theorem start_not_idempotent_cex :
    ¬ ∀ s : QueueState, s.activeLoops ≠ [] → startDownloadQueue s = s :=
  fun h => absurd (h busyState (by decide)) (by decide)

/-- C5 amended: `startDownloadQueue` has no guard — called while a loop is
already in flight, it launches one more `processDownloadQueue` invocation
(snapshotting the currently queued ids), and an id still pending in an active
loop and still queued is then pending in two distinct concurrent loops. -/
theorem start_spawns_second_loop (s : QueueState) (modelId : String) (k : List String)
    (hk : k ∈ s.activeLoops) (hid : modelId ∈ k)
    (hq : modelId ∈ queuedSnapshot s.downloadQueue) :
    (startDownloadQueue s).activeLoops.length = s.activeLoops.length + 1 ∧
    ∃ i j : Nat, i ≠ j ∧
      (∃ ki, (startDownloadQueue s).activeLoops[i]? = some ki ∧ modelId ∈ ki) ∧
      (∃ kj, (startDownloadQueue s).activeLoops[j]? = some kj ∧ modelId ∈ kj) := by
  refine ⟨by simp [startDownloadQueue], ?_⟩
  obtain ⟨n, hn⟩ := List.mem_iff_get.mp hk
  refine ⟨n.1, s.activeLoops.length, Nat.ne_of_lt n.2, ⟨k, ?_, hid⟩,
    ⟨queuedSnapshot s.downloadQueue, ?_, hq⟩⟩
  · rw [show (startDownloadQueue s).activeLoops
        = s.activeLoops ++ [queuedSnapshot s.downloadQueue] from rfl]
    have happ : (s.activeLoops ++ [queuedSnapshot s.downloadQueue])[(n : Nat)]?
        = s.activeLoops[(n : Nat)]? := by
      simp [List.getElem?_append, n.2]
    rw [happ, List.getElem?_eq_getElem n.2, ← hn]
    simp [List.get_eq_getElem]
  · rw [show (startDownloadQueue s).activeLoops
        = s.activeLoops ++ [queuedSnapshot s.downloadQueue] from rfl]
    simp [List.getElem?_concat_length]

/-! ## C6: stale selected ids are kept, not dropped -/

/-- C6 counterexample: the claimed invariant "every member of the selection
exists in the catalog, stale ids being dropped by the operations" fails —
toggling an id absent from the catalog (here `"ghost"` against the sample
catalog) adds it to the selection and it stays a member. -/
theorem stale_ids_cex :
    ¬ ∀ (sel : List String) (modelId : String),
        (∀ x ∈ sel, (lookupModel demoModels x).isSome = true) →
        ∀ x ∈ toggleModelSelection modelId sel,
          (lookupModel demoModels x).isSome = true := by
  intro h
  have h2 := h [] "ghost" (by simp) "ghost" (by decide)
  revert h2
  decide

/-- C6 amended: the selection operations do not validate against the catalog:
toggling an unselected id with no catalog entry makes it a member, and the
operations that consume the selection (`calculateSelectedSize`,
`addSelectedToQueue`) merely skip it — the stale id is silently kept, never
dropped. -/
theorem stale_ids_tolerated (cache : List Model) (sel : List String)
    (queue : List QueueEntry) (modelId : String)
    (hm : lookupModel cache modelId = none) (hs : modelId ∉ sel) :
    modelId ∈ toggleModelSelection modelId sel ∧
    calculateSelectedSize cache (toggleModelSelection modelId sel)
      = calculateSelectedSize cache sel ∧
    addSelectedToQueue cache (toggleModelSelection modelId sel) queue
      = addSelectedToQueue cache sel queue := by
  have htog : toggleModelSelection modelId sel = sel ++ [modelId] := by
    unfold toggleModelSelection
    simp [hs]
  refine ⟨by simp [htog], ?_, ?_⟩
  · rw [htog, calculateSelectedSize_eq_sum, calculateSelectedSize_eq_sum,
      List.filterMap_append]
    simp [hm]
  · rw [htog]
    unfold addSelectedToQueue
    rw [List.foldl_append]
    simp [enqueueStep, hm]

/-! ## C7: favorite toggle is write-through and failure-tolerant -/

/-- C7: `toggleFavorite` flips the id's membership in the favorites set on
every call, independently of whether the Preference Store write succeeds; on
success it writes the full favorites collection through to the store; on
failure it logs a warning, leaves the store untouched, and does not roll back
the in-memory flip (the operation is a total function — nothing is thrown). -/
theorem toggle_favorite_writethrough (storeOk : Bool) (modelId : String) (s : FavState)
    (h : s.favorites.Nodup) :
    ((modelId ∈ (toggleFavorite storeOk modelId s).favorites) ↔ modelId ∉ s.favorites) ∧
    (storeOk = true →
      (toggleFavorite storeOk modelId s).storedFavorites =
        some (toggleFavorite storeOk modelId s).favorites ∧
      (toggleFavorite storeOk modelId s).warnings = s.warnings) ∧
    (storeOk = false →
      (toggleFavorite storeOk modelId s).storedFavorites = s.storedFavorites ∧
      (toggleFavorite storeOk modelId s).warnings
        = s.warnings ++ ["Could not save favorites"]) := by
  cases storeOk with
  | true =>
      by_cases hmem : modelId ∈ s.favorites
      · simp [toggleFavorite, saveFavorites, hmem, h.mem_erase_iff]
      · simp [toggleFavorite, saveFavorites, hmem]
  | false =>
      by_cases hmem : modelId ∈ s.favorites
      · simp [toggleFavorite, saveFavorites, hmem, h.mem_erase_iff]
      · simp [toggleFavorite, saveFavorites, hmem]

/-! ## Concrete witnesses -/

/-- Witness for C3 at the sample catalog: enqueueing `"model_1"` into an
empty queue. -/
theorem enqueue_dedup_witness :
    lookupModel demoModels "model_1" = some model1 ∧
    ((((([] : List QueueEntry)).any fun item => item.id == "model_1") = true →
        entriesFor "model_1" (addSelectedToQueue demoModels ["model_1"] [])
          = entriesFor "model_1" ([] : List QueueEntry)) ∧
    (((([] : List QueueEntry)).any fun item => item.id == "model_1") = false →
        "model_1" ∈ ["model_1"] →
        entriesFor "model_1" (addSelectedToQueue demoModels ["model_1"] [])
          = [mkQueueEntry model1]) ∧
    ((mkQueueEntry model1).status = "queued" ∧ (mkQueueEntry model1).progress = 0) ∧
    entriesFor "model_1"
        (addSelectedToQueue demoModels ["model_1"]
          (addSelectedToQueue demoModels ["model_1"] []))
      = entriesFor "model_1" (addSelectedToQueue demoModels ["model_1"] [])) :=
  ⟨rfl, enqueue_dedup demoModels ["model_1"] [] "model_1" model1 rfl⟩

/-- Witness for C4: a one-entry queue whose transfer fails. -/
theorem queue_processing_resolves_witness :
    (([demoEntry] : List QueueEntry)[0]? = some demoEntry ∧
      demoEntry.status = "queued") ∧
    ((processDownloadQueue (fun _ => false) [demoEntry])[0]? =
        some (processOutcome ((fun _ => false) demoEntry.id) demoEntry) ∧
      (((processOutcome ((fun _ => false) demoEntry.id) demoEntry).status = "completed" ∧
          (processOutcome ((fun _ => false) demoEntry.id) demoEntry).progress = 100) ∨
        (processOutcome ((fun _ => false) demoEntry.id) demoEntry).status = "error") ∧
      (processOutcome ((fun _ => false) demoEntry.id) demoEntry).status ≠ "queued" ∧
      (processOutcome ((fun _ => false) demoEntry.id) demoEntry).status ≠ "downloading" ∧
      ((fun _ => false : String → Bool) demoEntry.id
          = (fun _ => false : String → Bool) demoEntry.id →
        (processDownloadQueue (fun _ => false) [demoEntry])[0]? =
          (processDownloadQueue (fun _ => false) [demoEntry])[0]?)) :=
  ⟨⟨rfl, rfl⟩,
    queue_processing_resolves (fun _ => false) (fun _ => false) [demoEntry] 0 demoEntry rfl rfl⟩

/-- Witness for the amended C5 at `busyState`: a second `start` while
`"model_1"` is pending in the in-flight loop and still queued. -/
theorem start_spawns_second_loop_witness :
    (["model_1"] ∈ busyState.activeLoops ∧ "model_1" ∈ (["model_1"] : List String) ∧
      "model_1" ∈ queuedSnapshot busyState.downloadQueue) ∧
    ((startDownloadQueue busyState).activeLoops.length
        = busyState.activeLoops.length + 1 ∧
      ∃ i j : Nat, i ≠ j ∧
        (∃ ki, (startDownloadQueue busyState).activeLoops[i]? = some ki ∧
          "model_1" ∈ ki) ∧
        (∃ kj, (startDownloadQueue busyState).activeLoops[j]? = some kj ∧
          "model_1" ∈ kj)) :=
  ⟨⟨by decide, by decide, by decide⟩,
    start_spawns_second_loop busyState "model_1" ["model_1"] (by decide) (by decide) (by decide)⟩

/-- Witness for the amended C6: toggling the uncatalogued id `"ghost"` onto
the selection `["model_1"]`. -/
theorem stale_ids_tolerated_witness :
    (lookupModel demoModels "ghost" = none ∧ "ghost" ∉ (["model_1"] : List String)) ∧
    ("ghost" ∈ toggleModelSelection "ghost" ["model_1"] ∧
      calculateSelectedSize demoModels (toggleModelSelection "ghost" ["model_1"])
        = calculateSelectedSize demoModels ["model_1"] ∧
      addSelectedToQueue demoModels (toggleModelSelection "ghost" ["model_1"]) []
        = addSelectedToQueue demoModels ["model_1"] []) :=
  ⟨⟨rfl, by decide⟩,
    stale_ids_tolerated demoModels ["model_1"] [] "ghost" rfl (by decide)⟩

/-- Witness for C7: a failing store write while toggling `"model_1"` into a
favorites set holding `"model_2"`. -/
theorem toggle_favorite_writethrough_witness :
    (["model_2"] : List String).Nodup ∧
    ((("model_1" ∈ (toggleFavorite false "model_1"
          { favorites := ["model_2"], storedFavorites := none, warnings := [] }).favorites) ↔
        "model_1" ∉ (["model_2"] : List String)) ∧
      (false = true →
        (toggleFavorite false "model_1"
            { favorites := ["model_2"], storedFavorites := none,
              warnings := [] }).storedFavorites =
          some (toggleFavorite false "model_1"
            { favorites := ["model_2"], storedFavorites := none,
              warnings := [] }).favorites ∧
        (toggleFavorite false "model_1"
            { favorites := ["model_2"], storedFavorites := none,
              warnings := [] }).warnings = []) ∧
      (false = false →
        (toggleFavorite false "model_1"
            { favorites := ["model_2"], storedFavorites := none,
              warnings := [] }).storedFavorites = none ∧
        (toggleFavorite false "model_1"
            { favorites := ["model_2"], storedFavorites := none,
              warnings := [] }).warnings = [] ++ ["Could not save favorites"])) :=
  ⟨by decide,
    toggle_favorite_writethrough false "model_1"
      { favorites := ["model_2"], storedFavorites := none, warnings := [] } (by decide)⟩

/-- Witness for C8: the increment stream `[30, 40, 40]` and a one-entry queue
whose transfer succeeds. -/
theorem progress_invariants_witness :
    (∀ x ∈ ([30, 40, 40] : List ℚ), 0 ≤ x) ∧
    ((∀ x ∈ downloadTrace [30, 40, 40], 0 ≤ x ∧ x ≤ 100) ∧
      List.Chain' (· ≤ ·) (downloadTrace [30, 40, 40]) ∧
      (∀ (transfer : String → Bool) (queue : List QueueEntry) (i : Nat)
          (item item2 : QueueEntry), queue[i]? = some item → item.status = "queued" →
          (processDownloadQueue transfer queue)[i]? = some item2 →
          item2.status = "completed" → item2.progress = 100)) :=
  ⟨by norm_num, progress_invariants [30, 40, 40] (by norm_num)⟩

/-- Witness for C9: toggling `"model_2"` twice (even parity) interleaved with
one `"model_1"` toggle, from the selection `["model_1"]`. -/
theorem toggle_parity_witness :
    (["model_1"] : List String).Nodup ∧
    ("model_2" ∈ applyToggles ["model_2", "model_1", "model_2"] ["model_1"] ↔
      Xor' (Odd ((["model_2", "model_1", "model_2"] : List String).count "model_2"))
        ("model_2" ∈ (["model_1"] : List String))) :=
  ⟨by decide, toggle_parity ["model_1"] ["model_2", "model_1", "model_2"] "model_2" (by decide)⟩

/-- Witness for C10: enqueueing while `"ghost"` is absent from the catalog. -/
theorem enqueue_skips_missing_witness :
    lookupModel demoModels "ghost" = none ∧
    (entriesFor "ghost" (addSelectedToQueue demoModels ["model_1"] [])
        = entriesFor "ghost" ([] : List QueueEntry) ∧
      ∀ item ∈ addSelectedToQueue demoModels ["model_1"] [],
        item ∈ ([] : List QueueEntry) ∨
        ∃ m, lookupModel demoModels item.id = some m ∧ item.name = m.name ∧
          item.url = m.civitaiUrl ∧ item.size = m.size ∧
          item.status = "queued" ∧ item.progress = 0) :=
  ⟨rfl, enqueue_skips_missing demoModels ["model_1"] [] "ghost" rfl⟩

end EnhancedWidgets
